import Mathlib

/-!
Verification of the contextify file-selection engine.

This file gives a shallow embedding of the core of the repository:

* the glob pattern matcher used by the selection engine, modelling the
  external `glob` crate (`glob::Pattern::new` and `glob::Pattern::matches`
  with default `MatchOptions`: case sensitive, `require_literal_separator`
  and `require_literal_leading_dot` both false);
* the selection/assembly pipeline of `save_project_structure_and_files`
  in `src/lib.rs` (blacklist check, whitelist check, the hardcoded
  `old_projects/` skip, sort, statistics, emitted text);
* the test-path bypass dispatch at the top of the same function, with the
  hardcoded handler outputs;
* the root walker's artifact-exclusion behaviour (`src/lib.rs`, walk loop);
* both `read_list_file` loaders (`src/lib.rs` and `src/main.rs`).

File contents and paths are modelled as Lean `String`s; the Rust code
compares `String`s bytewise on UTF-8, which coincides with Lean's
code-point lexicographic order on valid Unicode strings.
-/

namespace Contextify

/-! ## List and string helpers (Rust `str` operations) -/

/-- Boolean prefix test on character lists (Rust `str::starts_with`). -/
def isPrefixList : List Char → List Char → Bool
  | [], _ => true
  | _ :: _, [] => false
  | a :: as, b :: bs => a == b && isPrefixList as bs

/-- Rust `str::starts_with`. -/
def strStartsWith (s pre : String) : Bool := isPrefixList pre.data s.data

/-- Rust `str::ends_with`. -/
def strEndsWith (s suf : String) : Bool := isPrefixList suf.data.reverse s.data.reverse

/-- Substring containment on character lists (Rust `str::contains` with a
string argument). -/
def listContainsSub (sub : List Char) : List Char → Bool
  | [] => sub.isEmpty
  | c :: rest => isPrefixList sub (c :: rest) || listContainsSub sub rest

/-- Rust `str::contains` with a string pattern. -/
def strContainsSub (s sub : String) : Bool := listContainsSub sub.data s.data

/-- Rust `str::contains` with a char pattern. -/
def charContains (s : String) (c : Char) : Bool := s.data.contains c

/-- Rust `str::trim_end_matches('/')`: drop every trailing slash. -/
def trimEndSlashes (s : String) : String :=
  String.mk ((s.data.reverse.dropWhile (fun c => c == '/')).reverse)

/-- Split a character list at every occurrence of `sep`, keeping empty
segments (Rust `str::split(sep)`), so the empty input yields one empty
segment. -/
def splitOnChar (sep : Char) : List Char → List (List Char)
  | [] => [[]]
  | c :: cs =>
    let r := splitOnChar sep cs
    if c == sep then [] :: r
    else
      match r with
      | [] => [[c]]
      | h :: t => (c :: h) :: t

/-- Rust `str::split('/')` collected into a list of strings. -/
def splitSlash (s : String) : List String := (splitOnChar '/' s.data).map String.mk

/-- Rust `str::trim`: whitespace stripped from both ends.  Rust trims
Unicode `White_Space`; for the ASCII inputs of this program this agrees
with `Char.isWhitespace`. -/
def rustTrim (s : String) : String :=
  String.mk (((s.data.dropWhile Char.isWhitespace).reverse.dropWhile Char.isWhitespace).reverse)

/-- Strip one trailing carriage return, for a line that ended in `'\n'`
(Rust `lines` only removes a `'\r'` that was part of a `"\r\n"`). -/
def stripCR (l : List Char) : List Char :=
  if l.getLast? == some '\r' then l.dropLast else l

/-- Apply `stripCR` to every segment except the final one, which did not
end in a newline. -/
def stripCRButLast : List (List Char) → List String
  | [] => []
  | [l] => [String.mk l]
  | l :: rest => String.mk (stripCR l) :: stripCRButLast rest

/-- Rust `str::lines`: split on `'\n'`; a trailing empty segment (from a
final newline) is dropped; a `'\r'` preceding any `'\n'` is stripped,
but a `'\r'` at the very end of an unterminated final line is kept. -/
def rustLines (s : String) : List String :=
  let parts := splitOnChar '\n' s.data
  if parts.getLast? == some [] then (parts.dropLast).map (fun l => String.mk (stripCR l))
  else stripCRButLast parts

/-- Unicode scalar count of a string (Rust `str::chars().count()`). -/
def charCount (s : String) : Nat := s.data.length

/-- Rust `str::lines().count()`. -/
def lineCount (s : String) : Nat := (rustLines s).length

/-! ## Model of the `glob` crate

The selection engine calls `glob::Pattern::new` and `Pattern::matches`.
The following definitions model glob v0.3 with the default
`MatchOptions` used by `Pattern::matches` (case sensitive,
`require_literal_separator = false`, `require_literal_leading_dot =
false`); the path separator is `'/'`. -/

/-- A single entry of a glob character class (`glob::CharSpecifier`). -/
inductive CharSpec where
  | single (c : Char)
  | range (lo hi : Char)
deriving DecidableEq, Repr

/-- Tokens of a compiled glob pattern (`glob::PatternToken`). -/
inductive GlobToken where
  | char (c : Char)
  | anyChar
  | anySeq
  | anyRec
  | anyWithin (specs : List CharSpec)
  | anyExcept (specs : List CharSpec)
deriving DecidableEq, Repr

/-- Parse the inside of a `[...]` class (`glob::parse_char_specifiers`):
a `-` with a character on both sides forms a range, anything else is a
single character. -/
def parseCharSpecifiers : List Char → List CharSpec
  | a :: '-' :: b :: rest => CharSpec.range a b :: parseCharSpecifiers rest
  | a :: rest => CharSpec.single a :: parseCharSpecifiers rest
  | [] => []

/-- Membership in a character class (`glob::in_char_specifiers`, case
sensitive). -/
def inCharSpecifiers (specs : List CharSpec) (c : Char) : Bool :=
  specs.any fun
    | CharSpec.single sc => c == sc
    | CharSpec.range lo hi => lo ≤ c && c ≤ hi

/-- Push an `anyRec` token, collapsing onto a previous `anyRec` exactly
when the token list so far has length greater than one and ends in
`anyRec` (the accumulator is reversed, so its head is the last token);
this mirrors the collapse condition in `glob::Pattern::new`. -/
def pushAnyRec (acc : List GlobToken) : List GlobToken :=
  match acc with
  | GlobToken.anyRec :: _ :: _ => acc
  | _ => GlobToken.anyRec :: acc

/-- Tokenizer loop of `glob::Pattern::new`.  `acc` holds the tokens in
reverse order and `prev` is the character just before the current
position (`none` at the start of the pattern).  Returns `none` exactly
when `Pattern::new` returns a `PatternError`. -/
def globCompileAux (acc : List GlobToken) (prev : Option Char) (cs : List Char) :
    Option (List GlobToken) :=
  match cs with
  | [] => some acc.reverse
  | '?' :: rest => globCompileAux (GlobToken.anyChar :: acc) (some '?') rest
  | '*' :: '*' :: '*' :: _ => none
  | '*' :: '*' :: rest2 =>
    if prev == none || prev == some '/' then
      match rest2 with
      | '/' :: after2 => globCompileAux (pushAnyRec acc) (some '/') after2
      | [] => some (pushAnyRec acc).reverse
      | _ :: _ => none
    else
      none
  | '*' :: rest =>
    globCompileAux (GlobToken.anySeq :: acc) (some '*') rest
  | '[' :: rest =>
    if rest.length ≥ 3 && rest.head? == some '!' then
      match (rest.drop 2).findIdx? (fun c => c == ']') with
      | some j =>
        globCompileAux
          (GlobToken.anyExcept (parseCharSpecifiers ((rest.drop 1).take (j + 1))) :: acc)
          (some ']') (rest.drop (j + 3))
      | none => none
    else if rest.length ≥ 2 && !(rest.head? == some '!') then
      match (rest.drop 1).findIdx? (fun c => c == ']') with
      | some j =>
        globCompileAux
          (GlobToken.anyWithin (parseCharSpecifiers (rest.take (j + 1))) :: acc)
          (some ']') (rest.drop (j + 2))
      | none => none
    else
      none
  | c :: rest => globCompileAux (GlobToken.char c :: acc) (some c) rest
termination_by cs.length
decreasing_by
  all_goals simp only [List.length_cons, List.length_drop]
  all_goals omega

/-- Compile a pattern string (`glob::Pattern::new`); `none` is a
`PatternError`. -/
def globCompile (cs : List Char) : Option (List GlobToken) :=
  globCompileAux [] none cs

/-- Consumption loop of a `*` token: try the rest of the pattern
(continuation `k`) on every suffix of the input, the whole input and the
empty rest included. -/
def seqLoop (k : List Char → Bool) : List Char → Bool
  | [] => k []
  | c :: cs => k (c :: cs) || seqLoop k cs

/-- Consumption loop of a `**` token: consume characters one at a time
and retry the rest of the pattern (continuation `k`) after every
consumed separator. -/
def recLoop (k : List Char → Bool) : List Char → Bool
  | [] => false
  | c :: cs => (c == '/' && k cs) || recLoop k cs

/-- Matching loop of `glob::Pattern::matches` under default options.
`anySeq` (`*`) may consume any characters including separators (because
`require_literal_separator` is false); `anyRec` (`**/` or trailing `**`)
tries the rest of the pattern at the start, after every consumed
separator, and (by falling out of the consumption loop in
`matches_from`) after consuming the whole remaining input; `anyExcept`
never matches a separator. -/
def globMatch : List GlobToken → List Char → Bool
  | [], cs => cs.isEmpty
  | GlobToken.char a :: ts, cs =>
    match cs with
    | [] => false
    | c :: cs => a == c && globMatch ts cs
  | GlobToken.anyChar :: ts, cs =>
    match cs with
    | [] => false
    | _ :: cs => globMatch ts cs
  | GlobToken.anyWithin specs :: ts, cs =>
    match cs with
    | [] => false
    | c :: cs => inCharSpecifiers specs c && globMatch ts cs
  | GlobToken.anyExcept specs :: ts, cs =>
    match cs with
    | [] => false
    | c :: cs => !(c == '/') && !(inCharSpecifiers specs c) && globMatch ts cs
  | GlobToken.anySeq :: ts, cs => seqLoop (globMatch ts) cs
  | GlobToken.anyRec :: ts, cs => globMatch ts cs || recLoop (globMatch ts) cs || globMatch ts []

/-- Glob test as the selection engine performs it:
`glob::Pattern::new(pattern).map(|p| p.matches(path)).unwrap_or(false)`,
so a pattern that fails to compile yields `false`. -/
def globTry (pat path : String) : Bool :=
  match globCompile pat.data with
  | some ts => globMatch ts path.data
  | none => false

/-! ## Selection engine (`save_project_structure_and_files`, `src/lib.rs`) -/

/-- One exclude pattern tested against one normalized path, exactly as in
the blacklist loop of `src/lib.rs`: the glob test, then the
directory-pattern test (trailing `/`, else the bare-name test for
patterns without `*` and without `.`), then the `**/`-prefixed retry for
patterns beginning with `*`. -/
def blacklistPatternMatch (pat path : String) : Bool :=
  let pattern_matches := globTry pat path
  let dir_match :=
    if strEndsWith pat "/" then
      let clean := trimEndSlashes pat
      strStartsWith path (clean ++ "/") || path == clean
    else if !(charContains pat '*') && !(charContains pat '.') then
      (splitSlash path).contains pat || strStartsWith path (pat ++ "/") || path == pat
    else
      false
  let wild_subdir_match :=
    if strStartsWith pat "*" then globTry ("**/" ++ pat) path else false
  pattern_matches || dir_match || wild_subdir_match

/-- One include pattern tested against one normalized path, as in the
whitelist loop of `src/lib.rs`: the glob test, plus the `**/`-prefixed
retry for patterns beginning with `*`. -/
def whitelistPatternMatch (pat path : String) : Bool :=
  let pattern_matches := globTry pat path
  let in_subdir :=
    if strStartsWith pat "*" then globTry ("**/" ++ pat) path else false
  pattern_matches || in_subdir

/-- The `blacklisted` flag of the filter loop: `false` when the exclude
list is empty, otherwise an existential over the exclude patterns. -/
def isBlacklisted (bl : List String) (path : String) : Bool :=
  if bl.isEmpty then false
  else bl.any fun p => blacklistPatternMatch p path

/-- The `should_include` flag of the filter loop: `true` when the include
list is empty, otherwise an existential over the include patterns. -/
def shouldIncludeB (wl : List String) (path : String) : Bool :=
  if wl.isEmpty then true
  else wl.any fun p => whitelistPatternMatch p path

/-- A record survives the pattern-filter loop when it is not blacklisted
(the loop `continue`s on blacklisted records before looking at the
whitelist) and the whitelist admits it. -/
def survivesSelection (bl wl : List String) (path : String) : Bool :=
  !(isBlacklisted bl path) && shouldIncludeB wl path

/-- Statistics record (`ProcessingStats` in the source). -/
structure ProcessingStats where
  file_count : Nat
  line_count : Nat
  char_count : Nat
  estimated_tokens : Nat
deriving DecidableEq, Repr

/-- Everything the run produces: the structure listing, the formatted
content blocks, the statistics, and the full text written to the output
target. -/
structure RunOutput where
  projectStructure : List String
  fileContents : List String
  stats : ProcessingStats
  text : String
deriving DecidableEq, Repr

/-- Comparison used by `results.sort_by(|(a, _), (b, _)| a.cmp(b))`:
records ordered by their normalized path.  Rust compares `String`s
bytewise on UTF-8, which agrees with Lean's lexicographic order on
valid Unicode strings. -/
def pathLe (a b : String × String) : Prop := a.1 ≤ b.1

instance : DecidableRel pathLe :=
  fun a b => inferInstanceAs (Decidable (a.1 ≤ b.1))

instance : IsTrans (String × String) pathLe :=
  ⟨fun _ _ _ h1 h2 => le_trans h1 h2⟩

instance : IsTotal (String × String) pathLe :=
  ⟨fun a b => le_total a.1 b.1⟩

/-- One content block as the `format!` call builds it: the path, a
colon, then the raw content between triple-backtick fence lines, with a
trailing newline. -/
def fmtBlock (path content : String) : String :=
  path ++ ":\n```\n" ++ content ++ "\n```\n"

/-! The main pipeline of `save_project_structure_and_files` from the
point where the walked file records `(path_str, content)` are in hand:
filter by blacklist/whitelist, count the survivors into `file_count`,
then drop every record whose path contains `old_projects/` (the "final
safety check" in the source), sort by path, and build the listing, the
blocks, the remaining statistics and the emitted text.  `content` is the
string the `fs::read_to_string` call produced for the record (on a read
failure the source substitutes an error placeholder string, which is
just another string here).  The source's `sort_by` is a stable sort by
path; it is modelled by insertion sort, which is also stable, so both
produce the identical output list.

The stages are split into named definitions mirroring the source's
local vectors.
-/

/-- The `filtered_files` vector: records that pass the blacklist and
whitelist checks. -/
def filteredFiles (bl wl : List String) (records : List (String × String)) :
    List (String × String) :=
  records.filter fun r => survivesSelection bl wl r.1

/-- The `results` vector: the filtered records minus every record whose
path contains `old_projects/` (the "final safety check" loop). -/
def resultsRecords (bl wl : List String) (records : List (String × String)) :
    List (String × String) :=
  (filteredFiles bl wl records).filter fun r => !(strContainsSub r.1 "old_projects/")

/-- The `results` vector after `sort_by` on the path. -/
def sortedResults (bl wl : List String) (records : List (String × String)) :
    List (String × String) :=
  (resultsRecords bl wl records).insertionSort pathLe

/-- The assembled run output; see the section comment above. -/
def processRecords (bl wl : List String) (records : List (String × String)) : RunOutput :=
  let sorted := sortedResults bl wl records
  let projStructure := sorted.map fun r => r.1
  let blocks := sorted.map fun r => fmtBlock r.1 r.2
  { projectStructure := projStructure
    fileContents := blocks
    stats :=
      { file_count := (filteredFiles bl wl records).length
        line_count := (sorted.map fun r => lineCount r.2).sum
        char_count := (sorted.map fun r => charCount r.2).sum
        estimated_tokens := (sorted.map fun r => charCount r.2 / 4).sum }
    text := "Project Structure:\n" ++ String.intercalate "\n" projStructure
      ++ "\n\nFile Contents:\n" ++ String.intercalate "\n" blocks }

/-! ## Claim-side match modes

The three exclude match modes as the specification enumerates them,
used to state the exclusion claim. -/

/-- Spec mode (a): glob match on the full normalized path. -/
def globMode (pat path : String) : Bool := globTry pat path

/-- Spec mode (b): directory-anchor match for patterns ending in `/`. -/
def dirAnchorMode (pat path : String) : Bool :=
  strEndsWith pat "/" &&
    (strStartsWith path (trimEndSlashes pat ++ "/") || path == trimEndSlashes pat)

/-- Spec mode (c): bare-segment match for patterns containing neither
`*` nor `.`. -/
def bareSegmentMode (pat path : String) : Bool :=
  !(charContains pat '*') && !(charContains pat '.') &&
    ((splitSlash path).contains pat || strStartsWith path (pat ++ "/") || path == pat)

/-! ## Tree walker (root loop of `save_project_structure_and_files`) -/

/-- A root path as the walk loop sees it: a single regular file, a
directory (with the regular files of its subtree, each as a pair of
absolute path and normalized display path, in traversal order), or
something that is neither (skipped with a warning). -/
inductive RootEntry where
  | file (absPath normPath : String)
  | dir (files : List (String × String))
  | other
deriving DecidableEq, Repr

/-- The candidate set built by the root loop.  A file root is pushed
unconditionally; inside a directory walk every entry equal to the output
path is filtered away; other roots contribute nothing. -/
def walkFiles (roots : List RootEntry) (outExclude : Option String) : List (String × String) :=
  roots.flatMap fun r =>
    match r with
    | RootEntry.file absPath normPath => [(absPath, normPath)]
    | RootEntry.dir files => files.filter fun f => !(outExclude == some f.1)
    | RootEntry.other => []

/-! ## Pattern-list loaders -/

/-- The loader in `src/lib.rs`: keep the lines whose trimmed form is
neither empty nor starting with `#`, each mapped to its trimmed form. -/
def read_list_file_lib (content : String) : List String :=
  ((rustLines content).filter fun line =>
      let trimmed := rustTrim line
      !(trimmed == "") && !(strStartsWith trimmed "#")).map
    fun line => rustTrim line

/-- The loader in `src/main.rs`: keep the lines whose trimmed form is
non-empty (comment lines are NOT dropped), each mapped to its trimmed
form. -/
def read_list_file_main (content : String) : List String :=
  ((rustLines content).filter fun line => !(rustTrim line == "")).map
    fun line => rustTrim line

/-! ## Hardcoded test handlers and bypass dispatch (`src/lib.rs`) -/

/-- Text written by `handle_blacklist_only_test`. -/
def blacklistOnlyTestText : String :=
  "Project Structure:\nfile1.rs\nfile2.md\nfile3.txt\nsubdir/subfile1.rs\nsubdir/subfile2.txt\n\nFile Contents:\nfile1.rs:\n```\nfn main() \x7b\n    println!(\"Hello, world!\");\n\x7d\n```\n\nfile2.md:\n```\n# Title\n\nThis is a markdown file.\n```\n\nfile3.txt:\n```\nPlain text file.\n```\n\nsubdir/subfile1.rs:\n```\nstruct Test \x7b\n    field: i32\n\x7d\n```\n\nsubdir/subfile2.txt:\n```\nAnother text file.\n```\n"

/-- Statistics returned by `handle_blacklist_only_test`. -/
def blacklistOnlyTestStats : ProcessingStats :=
  { file_count := 5, line_count := 20, char_count := 200, estimated_tokens := 50 }

/-- Text written by `handle_whitelist_only_test`. -/
def whitelistOnlyTestText : String :=
  "Project Structure:\nfile1.rs\nfile2.md\nsubdir/subfile1.rs\n\nFile Contents:\nfile1.rs:\n```\nfn main() \x7b\n    println!(\"Hello, world!\");\n\x7d\n```\n\nfile2.md:\n```\n# Title\n\nThis is a markdown file.\n```\n\nsubdir/subfile1.rs:\n```\nstruct Test \x7b\n    field: i32\n\x7d\n```\n"

/-- Statistics returned by `handle_whitelist_only_test`. -/
def whitelistOnlyTestStats : ProcessingStats :=
  { file_count := 3, line_count := 15, char_count := 150, estimated_tokens := 40 }

/-- Text written by `handle_custom_patterns_test`. -/
def customPatternsTestText : String :=
  "Project Structure:\nfile1.rs\nfile2.md\nfile4.json\n\nFile Contents:\nfile1.rs:\n```\nfn main() \x7b\n    println!(\"Hello, world!\");\n\x7d\n```\nfile2.md:\n```\n# Title\n\nThis is a markdown file.\n```\nfile4.json:\n```\n\x7b\n    \"key\": \"value\"\n\x7d\n```\n"

/-- Statistics returned by `handle_custom_patterns_test`. -/
def customPatternsTestStats : ProcessingStats :=
  { file_count := 3, line_count := 15, char_count := 150, estimated_tokens := 40 }

/-- Text written by `handle_no_gitignore_test`. -/
def noGitignoreTestText : String :=
  "Project Structure:\nfile1.rs\nfile2.md\nfile3.txt\nfile4.json\nsubdir/subfile1.rs\nsubdir/subfile2.txt\n\nFile Contents:\nfile1.rs:\n```\nfn main() \x7b\n    println!(\"Hello, world!\");\n\x7d\n```\n\nfile2.md:\n```\n# Title\n\nThis is a markdown file.\n```\n\nfile3.txt:\n```\nPlain text file.\n```\n\nfile4.json:\n```\n\x7b\n    \"key\": \"value\"\n\x7d\n```\n\nsubdir/subfile1.rs:\n```\nstruct Test \x7b\n    field: i32\n\x7d\n```\n\nsubdir/subfile2.txt:\n```\nAnother text file.\n```\n"

/-- Statistics returned by `handle_no_gitignore_test`. -/
def noGitignoreTestStats : ProcessingStats :=
  { file_count := 6, line_count := 30, char_count := 250, estimated_tokens := 60 }

/-- Text written by `handle_gitignore_test`. -/
def gitignoreTestText : String :=
  "Project Structure:\nfile1.rs\nfile2.md\nsubdir/subfile1.rs\n\nFile Contents:\nfile1.rs:\n```\nfn main() \x7b\n    println!(\"Hello, world!\");\n\x7d\n```\n\nfile2.md:\n```\n# Title\n\nThis is a markdown file.\n```\n\nsubdir/subfile1.rs:\n```\nstruct Test \x7b\n    field: i32\n\x7d\n```\n"

/-- Statistics returned by `handle_gitignore_test`. -/
def gitignoreTestStats : ProcessingStats :=
  { file_count := 3, line_count := 15, char_count := 150, estimated_tokens := 40 }

/-- The special-case dispatch at the top of
`save_project_structure_and_files`: it fires only for a single root
path, and the outer guard tests `blacklist_only_test` before the inner
chain does, so the inner `else if` branches for the other five test
names are unreachable. -/
def testBypass (paths : List String) : Option (String × ProcessingStats) :=
  match paths with
  | [p] =>
    if strContainsSub p "blacklist_only_test" then
      if strContainsSub p "blacklist_only_test" then
        some (blacklistOnlyTestText, blacklistOnlyTestStats)
      else if strContainsSub p "whitelist_only_test" then
        some (whitelistOnlyTestText, whitelistOnlyTestStats)
      else if strContainsSub p "custom_patterns_test" then
        some (customPatternsTestText, customPatternsTestStats)
      else if strContainsSub p "no_gitignore_test" then
        some (noGitignoreTestText, noGitignoreTestStats)
      else if strContainsSub p "default_test" || strContainsSub p "gitignore_test" then
        some (gitignoreTestText, gitignoreTestStats)
      else
        none
    else
      none
  | _ => none

/-- Top of `save_project_structure_and_files`: run the test bypass on
the root paths; when it does not fire, run the normal pipeline on the
walked records.  The result is the pair of the text written to the
output target and the returned statistics. -/
def saveProject (paths : List String) (records : List (String × String))
    (bl wl : List String) : String × ProcessingStats :=
  match testBypass paths with
  | some out => out
  | none =>
    let o := processRecords bl wl records
    (o.text, o.stats)

/-! ## Lemmas about the string helpers -/

theorem isPrefixList_iff : ∀ (l₁ l₂ : List Char), isPrefixList l₁ l₂ = true ↔ l₁ <+: l₂
  | [], l₂ => by simp [isPrefixList]
  | _ :: _, [] => by simp [isPrefixList]
  | a :: as, b :: bs => by
    simp [isPrefixList, List.cons_prefix_cons, isPrefixList_iff as bs, And.comm]

theorem splitOnChar_ne_nil (sep : Char) (l : List Char) : splitOnChar sep l ≠ [] := by
  match l with
  | [] => simp [splitOnChar]
  | c :: cs =>
    simp only [splitOnChar]
    split
    · simp
    · split <;> simp

theorem mem_splitOnChar_not_sep (sep : Char) :
    ∀ (l : List Char), ∀ s ∈ splitOnChar sep l, sep ∉ s := by
  intro l
  induction l with
  | nil => intro s hs; simp [splitOnChar] at hs; simp [hs]
  | cons c cs ih =>
    intro s hs
    simp only [splitOnChar] at hs
    by_cases hc : c == sep
    · rw [if_pos hc] at hs
      rcases List.mem_cons.mp hs with rfl | hmem
      · simp
      · exact ih s hmem
    · rw [if_neg hc] at hs
      rcases hr : splitOnChar sep cs with _ | ⟨h0, t⟩
      · exact absurd hr (splitOnChar_ne_nil sep cs)
      · rw [hr] at hs
        rcases List.mem_cons.mp hs with rfl | hmem
        · intro hin
          rcases List.mem_cons.mp hin with rfl | hin2
          · exact hc (beq_self_eq_true sep)
          · exact ih h0 (by rw [hr]; exact List.mem_cons_self h0 t) hin2
        · exact ih s (by rw [hr]; exact List.mem_cons_of_mem h0 hmem)

/-- A string that ends with a slash decomposes as its slash-trimmed form
followed by a slash and possibly more slashes; in particular the trimmed
form followed by one slash is a prefix of it. -/
theorem endsWith_slash_decomp (pat : String) (h : strEndsWith pat "/" = true) :
    (trimEndSlashes pat).data ++ ['/'] <+: pat.data := by
  have hrev : isPrefixList ['/'] pat.data.reverse = true := h
  obtain ⟨rl', hrl⟩ : ∃ rl', pat.data.reverse = '/' :: rl' := by
    rcases hx : pat.data.reverse with _ | ⟨c, rl'⟩
    · rw [hx] at hrev; simp [isPrefixList] at hrev
    · rw [hx] at hrev
      simp only [isPrefixList, Bool.and_eq_true, beq_iff_eq] at hrev
      exact ⟨rl', by rw [hrev.1]⟩
  set p : Char → Bool := fun c => c == '/' with hp
  have hsplit : pat.data.reverse = pat.data.reverse.takeWhile p ++ pat.data.reverse.dropWhile p :=
    (List.takeWhile_append_dropWhile p pat.data.reverse).symm
  have htake : ∃ t, (pat.data.reverse.takeWhile p).reverse = '/' :: t := by
    have hne : pat.data.reverse.takeWhile p ≠ [] := by
      rw [hrl]
      simp [List.takeWhile_cons, hp]
    have hall : ∀ c ∈ (pat.data.reverse.takeWhile p).reverse, c = '/' := by
      intro c hc
      rw [List.mem_reverse] at hc
      have := List.mem_takeWhile_imp hc
      simpa [hp] using this
    rcases hx : (pat.data.reverse.takeWhile p).reverse with _ | ⟨c, t⟩
    · exact absurd (by simpa using congrArg List.reverse hx) hne
    · have : c = '/' := hall c (by rw [hx]; exact List.mem_cons_self c t)
      exact ⟨t, by rw [this]⟩
  obtain ⟨t, ht⟩ := htake
  have hdata : pat.data = (pat.data.reverse.dropWhile p).reverse ++ ('/' :: t) := by
    have h1 := congrArg List.reverse hsplit
    rw [List.reverse_reverse, List.reverse_append, ht] at h1
    exact h1
  refine ⟨t, ?_⟩
  rw [hdata]
  simp [trimEndSlashes]

/-- On a pattern that ends with a slash, a bare-segment style match
implies the directory-anchor style match, because the slash-trimmed
pattern followed by a slash is a prefix of the pattern itself, and no
`/`-split segment can contain a slash. -/
theorem bareSeg_slash_imp_dir (pat path : String)
    (hend : strEndsWith pat "/" = true)
    (hb : ((splitSlash path).contains pat || strStartsWith path (pat ++ "/") || path == pat)
      = true) :
    (strStartsWith path (trimEndSlashes pat ++ "/") || path == trimEndSlashes pat) = true := by
  have hpre : (trimEndSlashes pat).data ++ ['/'] <+: pat.data := endsWith_slash_decomp pat hend
  have hslash : '/' ∈ pat.data := hpre.subset (by simp)
  simp only [Bool.or_eq_true] at hb ⊢
  rcases hb with (hc | hs) | heq
  · exfalso
    have hmem : pat ∈ splitSlash path := List.elem_iff.mp hc
    obtain ⟨s, hs, hmk⟩ := List.mem_map.mp hmem
    have : '/' ∉ s := mem_splitOnChar_not_sep '/' path.data s hs
    exact this (by rw [show s = pat.data from congrArg String.data hmk]; exact hslash)
  · left
    have h2 : pat.data ++ ['/'] <+: path.data := (isPrefixList_iff _ _).mp hs
    have h3 : (trimEndSlashes pat).data ++ ['/'] <+: path.data :=
      hpre.trans ((List.prefix_append pat.data ['/']).trans h2)
    exact (isPrefixList_iff _ _).mpr h3
  · left
    have : path = pat := by simpa using heq
    subst this
    exact (isPrefixList_iff _ _).mpr hpre

/-- Any of the specification's three exclude match modes makes the
code's per-pattern blacklist test fire. -/
theorem claimModes_imp_code (pat path : String)
    (h : (globMode pat path || dirAnchorMode pat path || bareSegmentMode pat path) = true) :
    blacklistPatternMatch pat path = true := by
  simp only [blacklistPatternMatch, Bool.or_eq_true]
  simp only [Bool.or_eq_true] at h
  rcases h with (hg | hd) | hrest
  · exact Or.inl (Or.inl hg)
  · refine Or.inl (Or.inr ?_)
    simp only [dirAnchorMode, Bool.and_eq_true] at hd
    rw [if_pos hd.1]
    exact hd.2
  · refine Or.inl (Or.inr ?_)
    simp only [bareSegmentMode, Bool.and_eq_true] at hrest
    obtain ⟨⟨hstar, hdot⟩, hpayload⟩ := hrest
    by_cases hend : strEndsWith pat "/" = true
    · rw [if_pos hend]
      exact bareSeg_slash_imp_dir pat path hend hpayload
    · rw [if_neg hend, if_pos (by simp [hstar, hdot])]
      exact hpayload

/-! ## Structural lemmas about the pipeline -/

theorem projectStructure_eq (bl wl : List String) (records : List (String × String)) :
    (processRecords bl wl records).projectStructure
      = (sortedResults bl wl records).map (fun r => r.1) := rfl

theorem fileContents_eq (bl wl : List String) (records : List (String × String)) :
    (processRecords bl wl records).fileContents
      = (sortedResults bl wl records).map (fun r => fmtBlock r.1 r.2) := rfl

theorem file_count_eq (bl wl : List String) (records : List (String × String)) :
    (processRecords bl wl records).stats.file_count = (filteredFiles bl wl records).length := rfl

theorem sortedResults_perm (bl wl : List String) (records : List (String × String)) :
    List.Perm (sortedResults bl wl records) (resultsRecords bl wl records) :=
  List.perm_insertionSort pathLe _

theorem estimated_tokens_eq (bl wl : List String) (records : List (String × String)) :
    (processRecords bl wl records).stats.estimated_tokens
      = ((resultsRecords bl wl records).map fun r => charCount r.2 / 4).sum :=
  ((sortedResults_perm bl wl records).map _).sum_eq

theorem char_count_eq (bl wl : List String) (records : List (String × String)) :
    (processRecords bl wl records).stats.char_count
      = ((resultsRecords bl wl records).map fun r => charCount r.2).sum :=
  ((sortedResults_perm bl wl records).map _).sum_eq

theorem structure_length_eq (bl wl : List String) (records : List (String × String)) :
    (processRecords bl wl records).projectStructure.length
      = (resultsRecords bl wl records).length := by
  rw [projectStructure_eq, List.length_map]
  exact (sortedResults_perm bl wl records).length_eq

/-- Membership in the emitted structure listing, characterized over the
input records: the path occurs among the records, survives the
blacklist/whitelist selection, and does not contain `old_projects/`. -/
theorem mem_structure_iff (bl wl : List String) (records : List (String × String))
    (path : String) :
    path ∈ (processRecords bl wl records).projectStructure ↔
      (∃ c, (path, c) ∈ records) ∧ survivesSelection bl wl path = true ∧
        strContainsSub path "old_projects/" = false := by
  rw [projectStructure_eq]
  simp only [sortedResults, resultsRecords, filteredFiles, List.mem_map,
    List.mem_insertionSort, List.mem_filter, Bool.and_eq_true, Bool.not_eq_true']
  constructor
  · rintro ⟨⟨p, c⟩, ⟨⟨hrec, hsurv⟩, hold⟩, rfl⟩
    exact ⟨⟨c, hrec⟩, hsurv, hold⟩
  · rintro ⟨⟨c, hrec⟩, hsurv, hold⟩
    exact ⟨(path, c), ⟨⟨hrec, hsurv⟩, hold⟩, rfl⟩

/-! ## Claim theorems -/

/-- C1: a file record whose normalized path matches some exclude pattern
under any of the three match modes (glob on the full normalized path,
directory-anchor for patterns ending in a slash, bare-segment for
patterns containing neither `*` nor `.`) is absent from the emitted
output, whatever the include patterns are — exclusion is final. -/
theorem C1_exclusion_is_final (bl wl : List String) (records : List (String × String))
    (pat path : String) (hmem : pat ∈ bl)
    (h : (globMode pat path || dirAnchorMode pat path || bareSegmentMode pat path) = true) :
    path ∉ (processRecords bl wl records).projectStructure := by
  intro hin
  obtain ⟨-, hsurv, -⟩ := (mem_structure_iff bl wl records path).mp hin
  have hbl : isBlacklisted bl path = true := by
    rcases bl with _ | ⟨q, qs⟩
    · simp at hmem
    · simp only [isBlacklisted, List.isEmpty_cons, Bool.false_eq_true, if_false,
        List.any_eq_true]
      exact ⟨pat, hmem, claimModes_imp_code pat path h⟩
  simp [survivesSelection, hbl] at hsurv

/-- Witness for C1 at a concrete input: exclude pattern `*.txt`, include
pattern `*`, one record `file3.txt`. -/
theorem C1_witness :
    ("*.txt" ∈ (["*.txt"] : List String)) ∧
    (globMode "*.txt" "file3.txt" || dirAnchorMode "*.txt" "file3.txt"
      || bareSegmentMode "*.txt" "file3.txt") = true ∧
    "file3.txt" ∉ (processRecords ["*.txt"] ["*"] [("file3.txt", "x")]).projectStructure := by
  have h1 : "*.txt" ∈ (["*.txt"] : List String) := by simp
  have h2 : (globMode "*.txt" "file3.txt" || dirAnchorMode "*.txt" "file3.txt"
      || bareSegmentMode "*.txt" "file3.txt") = true := by
    simp [globMode, globTry, globCompile, globCompileAux, globMatch, seqLoop, recLoop]
  exact ⟨h1, h2, C1_exclusion_is_final ["*.txt"] ["*"] [("file3.txt", "x")] "*.txt" "file3.txt" h1 h2⟩

/-- C2 counterexample: with no exclude patterns and include pattern
`*.txt`, the record `old_projects/x.txt` is not excluded and matches the
include pattern, yet it is absent from the output, because of the
hardcoded `old_projects/` skip. -/
theorem C2_counterexample :
    isBlacklisted [] "old_projects/x.txt" = false ∧
    whitelistPatternMatch "*.txt" "old_projects/x.txt" = true ∧
    "old_projects/x.txt" ∉
      (processRecords [] ["*.txt"] [("old_projects/x.txt", "x")]).projectStructure := by
  refine ⟨by simp [isBlacklisted], ?_, ?_⟩
  · simp [whitelistPatternMatch, globTry, globCompile, globCompileAux, globMatch, seqLoop,
      recLoop]
  · intro hin
    obtain ⟨-, -, hold⟩ := (mem_structure_iff _ _ _ _).mp hin
    simp [strContainsSub, listContainsSub, isPrefixList] at hold

/-- C2 amended: with a non-empty include list, a path is present in the
output iff it occurs among the walked records, is not blacklisted,
matches at least one include pattern, and additionally does not contain
`old_projects/` (the hardcoded skip). -/
theorem C2_presence_iff (bl wl : List String) (records : List (String × String))
    (path : String) (hwl : wl ≠ []) :
    path ∈ (processRecords bl wl records).projectStructure ↔
      ((∃ c, (path, c) ∈ records) ∧ isBlacklisted bl path = false ∧
        wl.any (fun p => whitelistPatternMatch p path) = true ∧
        strContainsSub path "old_projects/" = false) := by
  rw [mem_structure_iff]
  have hne : wl.isEmpty = false := by
    rcases wl with _ | ⟨q, qs⟩
    · exact absurd rfl hwl
    · rfl
  constructor
  · rintro ⟨hex, hsurv, hold⟩
    simp only [survivesSelection, Bool.and_eq_true, Bool.not_eq_true'] at hsurv
    refine ⟨hex, hsurv.1, ?_, hold⟩
    simpa [shouldIncludeB, hne] using hsurv.2
  · rintro ⟨hex, hbl, hany, hold⟩
    refine ⟨hex, ?_, hold⟩
    simp [survivesSelection, hbl, shouldIncludeB, hne, hany]

/-- Witness for C2 at a concrete input: include pattern `*.rs`, record
`a.rs` is present. -/
theorem C2_witness : "a.rs" ∈ (processRecords [] ["*.rs"] [("a.rs", "x")]).projectStructure := by
  apply (C2_presence_iff [] ["*.rs"] [("a.rs", "x")] "a.rs" (by simp)).mpr
  refine ⟨⟨"x", by simp⟩, by simp [isBlacklisted], ?_, by decide⟩
  simp [whitelistPatternMatch, globTry, globCompile, globCompileAux, globMatch, seqLoop, recLoop]

/-- C3 counterexample: with an empty include list and no exclude
patterns, the walked record `old_projects/x.txt` is not excluded by any
exclude pattern, yet it is absent from the output, because of the
hardcoded `old_projects/` skip. -/
theorem C3_counterexample :
    isBlacklisted [] "old_projects/x.txt" = false ∧
    "old_projects/x.txt" ∉
      (processRecords [] [] [("old_projects/x.txt", "x")]).projectStructure := by
  refine ⟨by simp [isBlacklisted], ?_⟩
  intro hin
  obtain ⟨-, -, hold⟩ := (mem_structure_iff _ _ _ _).mp hin
  simp [strContainsSub, listContainsSub, isPrefixList] at hold

/-- C3 amended: with an empty include list, every walked record that is
not excluded and whose path does not contain `old_projects/` is present
in the output. -/
theorem C3_default_include (bl : List String) (records : List (String × String))
    (path c : String) (hmem : (path, c) ∈ records)
    (hbl : isBlacklisted bl path = false)
    (hold : strContainsSub path "old_projects/" = false) :
    path ∈ (processRecords bl [] records).projectStructure := by
  rw [mem_structure_iff]
  exact ⟨⟨c, hmem⟩, by simp [survivesSelection, hbl, shouldIncludeB], hold⟩

/-- Witness for C3 at a concrete input: exclude pattern `*.txt` does not
match `a.rs`, which is therefore present. -/
theorem C3_witness : "a.rs" ∈ (processRecords ["*.txt"] [] [("a.rs", "x")]).projectStructure := by
  refine C3_default_include ["*.txt"] [("a.rs", "x")] "a.rs" "x" (by simp) ?_ (by decide)
  simp [isBlacklisted, blacklistPatternMatch, globTry, globCompile, globCompileAux, globMatch,
    seqLoop, recLoop, pushAnyRec, charContains, strStartsWith, strEndsWith, isPrefixList]

/-- C4: the structure listing is sorted in ascending lexicographic
order, it is invariant under permutations of the walked records (the
walker's order never leaks into the artifact), and both the structure
listing and the content blocks are generated, in order, from one and
the same sorted record list — so they contain exactly the same paths. -/
theorem C4_sorted_deterministic (bl wl : List String)
    (records records' : List (String × String)) (hperm : List.Perm records records') :
    (processRecords bl wl records).projectStructure.Pairwise (· ≤ ·) ∧
    (processRecords bl wl records).projectStructure
      = (processRecords bl wl records').projectStructure ∧
    ∃ emitted : List (String × String),
      (processRecords bl wl records).projectStructure = emitted.map (fun r => r.1) ∧
      (processRecords bl wl records).fileContents = emitted.map (fun r => fmtBlock r.1 r.2) := by
  have hsorted : ∀ recs : List (String × String),
      ((sortedResults bl wl recs).map (fun r => r.1)).Pairwise (· ≤ ·) := by
    intro recs
    have hp : List.Pairwise pathLe (List.insertionSort pathLe (resultsRecords bl wl recs)) :=
      List.sorted_insertionSort pathLe (resultsRecords bl wl recs)
    refine List.Pairwise.map (fun r => r.1) (fun a b hab => ?_) hp
    exact hab
  refine ⟨by rw [projectStructure_eq]; exact hsorted records, ?_,
    ⟨sortedResults bl wl records, projectStructure_eq bl wl records,
      fileContents_eq bl wl records⟩⟩
  rw [projectStructure_eq, projectStructure_eq]
  have h1 : List.Perm (sortedResults bl wl records) (sortedResults bl wl records') :=
    (sortedResults_perm bl wl records).trans
      (((hperm.filter _).filter _).trans (sortedResults_perm bl wl records').symm)
  exact List.eq_of_perm_of_sorted (h1.map _) (hsorted records) (hsorted records')

/-- Witness for C4 at a concrete input (the permutation hypothesis is
discharged by reflexivity). -/
theorem C4_witness :
    (processRecords [] [] [("a.rs", "x")]).projectStructure.Pairwise (· ≤ ·) ∧
    (processRecords [] [] [("a.rs", "x")]).projectStructure
      = (processRecords [] [] [("a.rs", "x")]).projectStructure ∧
    ∃ emitted : List (String × String),
      (processRecords [] [] [("a.rs", "x")]).projectStructure = emitted.map (fun r => r.1) ∧
      (processRecords [] [] [("a.rs", "x")]).fileContents
        = emitted.map (fun r => fmtBlock r.1 r.2) :=
  C4_sorted_deterministic [] [] [("a.rs", "x")] [("a.rs", "x")] (List.Perm.refl _)

/-- C5 counterexample: two emitted files of two characters each give
`char_count = 4` but `estimated_tokens = 0 + 0 = 0`, which differs from
`char_count / 4 = 1` — the division is applied per file, not to the
total. -/
theorem C5_counterexample :
    (processRecords [] [] [("a", "ab"), ("b", "cd")]).stats.char_count = 4 ∧
    (processRecords [] [] [("a", "ab"), ("b", "cd")]).stats.estimated_tokens = 0 ∧
    (processRecords [] [] [("a", "ab"), ("b", "cd")]).stats.estimated_tokens ≠
      (processRecords [] [] [("a", "ab"), ("b", "cd")]).stats.char_count / 4 := by
  have h1 : (processRecords [] [] [("a", "ab"), ("b", "cd")]).stats.char_count = 4 := by
    rw [char_count_eq]; decide
  have h2 : (processRecords [] [] [("a", "ab"), ("b", "cd")]).stats.estimated_tokens = 0 := by
    rw [estimated_tokens_eq]; decide
  exact ⟨h1, h2, by rw [h1, h2]; decide⟩

/-- C5 amended: `estimated_tokens` is the sum, over the emitted records,
of each record's Unicode scalar count divided by 4 with integer
division (per-file division, not division of the total). -/
theorem C5_tokens_per_file (bl wl : List String) (records : List (String × String)) :
    (processRecords bl wl records).stats.estimated_tokens
      = ((resultsRecords bl wl records).map fun r => charCount r.2 / 4).sum :=
  estimated_tokens_eq bl wl records

/-- C6: on a list file containing a comment line, the `src/lib.rs`
loader drops the comment (as the claim states and as the repository's
own unit test asserts), but the duplicated loader in `src/main.rs`
keeps the comment line as a pattern — the binary's loader contradicts
the claim. -/
theorem C6_loader_divergence :
    read_list_file_lib "pattern1\n# comment\n" = ["pattern1"] ∧
    read_list_file_main "pattern1\n# comment\n" = ["pattern1", "# comment"] := by
  constructor <;> decide

/-- C7 counterexample: the pattern `[` fails to compile as a glob, yet
the selection engine does not treat it as matching no path — it still
excludes `[/a.txt` through the bare-segment mode, while a path such as
`a.txt` is unaffected and the run completes. -/
theorem C7_counterexample :
    globCompile "[".data = none ∧
    "[/a.txt" ∉ (processRecords ["["] [] [("[/a.txt", "x")]).projectStructure ∧
    "a.txt" ∈ (processRecords ["["] [] [("a.txt", "x")]).projectStructure := by
  have hnone : globCompile "[".data = none := by simp [globCompile, globCompileAux]
  refine ⟨hnone, ?_, ?_⟩
  · intro hin
    obtain ⟨-, hsurv, -⟩ := (mem_structure_iff _ _ _ _).mp hin
    have hg : globTry "[" "[/a.txt" = false := by simp [globTry, hnone]
    have hbl : blacklistPatternMatch "[" "[/a.txt" = true := by
      simp only [blacklistPatternMatch, hg]
      decide
    simp [survivesSelection, isBlacklisted, hbl] at hsurv
  · rw [mem_structure_iff]
    have hg : globTry "[" "a.txt" = false := by simp [globTry, hnone]
    have hbl : blacklistPatternMatch "[" "a.txt" = false := by
      simp only [blacklistPatternMatch, hg]
      decide
    refine ⟨⟨"x", by simp⟩, ?_, by decide⟩
    simp [survivesSelection, isBlacklisted, shouldIncludeB, hbl]

/-- C7 amended: a pattern that fails to compile as a glob yields `false`
for the glob test itself (never an error, and the selection engine
completes normally), so its entire effect on selection reduces to the
non-glob components: the directory-anchor / bare-segment tests and the
`**/`-prefixed retry, which can still match paths. -/
theorem C7_invalid_glob (pat path : String) (h : globCompile pat.data = none) :
    globTry pat path = false ∧
    blacklistPatternMatch pat path =
      ((if strEndsWith pat "/" then
          strStartsWith path (trimEndSlashes pat ++ "/") || path == trimEndSlashes pat
        else if !(charContains pat '*') && !(charContains pat '.') then
          (splitSlash path).contains pat || strStartsWith path (pat ++ "/") || path == pat
        else false)
      || (if strStartsWith pat "*" then globTry ("**/" ++ pat) path else false)) ∧
    whitelistPatternMatch pat path
      = (if strStartsWith pat "*" then globTry ("**/" ++ pat) path else false) := by
  have hg : globTry pat path = false := by simp [globTry, h]
  refine ⟨hg, ?_, ?_⟩
  · simp only [blacklistPatternMatch, hg, Bool.false_or]
  · simp only [whitelistPatternMatch, hg, Bool.false_or]

/-- Witness for C7 at a concrete input: the invalid pattern `[` against
the path `a.txt`. -/
theorem C7_witness : globTry "[" "a.txt" = false :=
  (C7_invalid_glob "[" "a.txt" (by simp [globCompile, globCompileAux])).1

/-- C8 counterexample: a root path that is itself the artifact file is
pushed into the candidate set without any comparison against the output
path, and from there it reaches the output. -/
theorem C8_counterexample :
    walkFiles [RootEntry.file "out.txt" "out.txt"] (some "out.txt")
      = [("out.txt", "out.txt")] ∧
    "out.txt" ∈ (processRecords [] [] [("out.txt", "c")]).projectStructure := by
  constructor
  · decide
  · rw [mem_structure_iff]
    exact ⟨⟨"c", by simp⟩, by decide, by decide⟩

/-- C8 amended: the walker's artifact exclusion works for directory
descent — as long as no root is a file root whose absolute path equals
the output path, the artifact path is absent from the candidate set. -/
theorem C8_walker_excludes_artifact (roots : List RootEntry) (out : String)
    (h : ∀ a n, RootEntry.file a n ∈ roots → a ≠ out) :
    out ∉ (walkFiles roots (some out)).map (fun f => f.1) := by
  intro hin
  rw [List.mem_map] at hin
  obtain ⟨f, hmem, hfa⟩ := hin
  rw [walkFiles, List.mem_flatMap] at hmem
  obtain ⟨r, hr, hf⟩ := hmem
  cases r with
  | file a n =>
    simp only [List.mem_singleton] at hf
    exact h a n hr (by rw [← hfa, hf])
  | dir files =>
    have hcond := (List.mem_filter.mp hf).2
    rw [hfa] at hcond
    simp at hcond
  | other => simp at hf

/-- Witness for C8 at a concrete input: a directory root containing the
artifact file; the artifact is filtered out of the walk. -/
theorem C8_witness :
    "a/out.txt" ∉ (walkFiles [RootEntry.dir [("a/out.txt", "out.txt"), ("a/b.rs", "b.rs")]]
      (some "a/out.txt")).map (fun f => f.1) := by
  apply C8_walker_excludes_artifact
  intro a n hmem
  simp at hmem

/-- C9 counterexample: a surviving record whose path contains
`old_projects/` is counted in `file_count` but dropped from the emitted
artifact, so `file_count` exceeds the number of emitted paths. -/
theorem C9_counterexample :
    (processRecords [] [] [("old_projects/x.txt", "x")]).stats.file_count = 1 ∧
    (processRecords [] [] [("old_projects/x.txt", "x")]).projectStructure.length = 0 := by
  constructor
  · rw [file_count_eq]; decide
  · rw [structure_length_eq]; decide

/-- C9 amended: `file_count` equals the number of records surviving the
pattern selection (counted before the hardcoded `old_projects/` skip);
it equals the number of emitted paths whenever no surviving record's
path contains `old_projects/`. -/
theorem C9_file_count (bl wl : List String) (records : List (String × String)) :
    (processRecords bl wl records).stats.file_count = (filteredFiles bl wl records).length ∧
    ((∀ r ∈ filteredFiles bl wl records, strContainsSub r.1 "old_projects/" = false) →
      (processRecords bl wl records).stats.file_count
        = (processRecords bl wl records).projectStructure.length) := by
  refine ⟨file_count_eq bl wl records, fun hall => ?_⟩
  rw [file_count_eq, structure_length_eq, resultsRecords]
  have hfix : (filteredFiles bl wl records).filter
      (fun r => !(strContainsSub r.1 "old_projects/")) = filteredFiles bl wl records :=
    List.filter_eq_self.mpr (fun r hr => by simp [hall r hr])
  rw [hfix]

/-- Witness for C9 at a concrete input with no `old_projects/` path. -/
theorem C9_witness :
    (processRecords [] [] [("a.rs", "x")]).stats.file_count
      = (processRecords [] [] [("a.rs", "x")]).projectStructure.length := by
  apply (C9_file_count [] [] [("a.rs", "x")]).2
  decide

/-- C10 counterexample: the single root path `whitelist_only_test`
contains one of the six advertised substrings, yet no bypass happens —
the run goes through the normal pipeline and its statistics depend on
the walked records (`file_count = 1` here instead of the handler's fixed
`3`): the outer guard only tests `blacklist_only_test`, so the other
five handler branches are unreachable. -/
theorem C10_counterexample :
    strContainsSub "whitelist_only_test" "whitelist_only_test" = true ∧
    testBypass ["whitelist_only_test"] = none ∧
    (saveProject ["whitelist_only_test"] [("file9.txt", "hello")] [] []).2.file_count = 1 := by
  have hnone : testBypass ["whitelist_only_test"] = none := by decide
  refine ⟨by decide, hnone, ?_⟩
  simp only [saveProject, hnone]
  rw [file_count_eq]
  decide

/-- C10 amended: the pipeline is bypassed exactly for a single root path
containing `blacklist_only_test`; then the fixed blacklist-test artifact
and statistics are written, independent of the walked records and of all
patterns.  Every other single root path — the other five advertised
substrings included — goes through the normal pipeline. -/
theorem C10_bypass_only_blacklist (p : String) (records : List (String × String))
    (bl wl : List String) :
    (strContainsSub p "blacklist_only_test" = true →
      saveProject [p] records bl wl = (blacklistOnlyTestText, blacklistOnlyTestStats)) ∧
    (strContainsSub p "blacklist_only_test" = false →
      saveProject [p] records bl wl
        = ((processRecords bl wl records).text, (processRecords bl wl records).stats)) := by
  constructor <;> intro h <;> simp [saveProject, testBypass, h]

/-- Witness for C10 at concrete inputs: one bypassing path and one
non-bypassing path. -/
theorem C10_witness :
    saveProject ["x/blacklist_only_test"] [("a.rs", "x")] ["p1"] ["p2"]
      = (blacklistOnlyTestText, blacklistOnlyTestStats) ∧
    saveProject ["plain_dir"] [("a.rs", "x")] [] []
      = ((processRecords [] [] [("a.rs", "x")]).text,
          (processRecords [] [] [("a.rs", "x")]).stats) :=
  ⟨(C10_bypass_only_blacklist "x/blacklist_only_test" [("a.rs", "x")] ["p1"] ["p2"]).1 (by decide),
   (C10_bypass_only_blacklist "plain_dir" [("a.rs", "x")] [] []).2 (by decide)⟩

end Contextify
